import Mathlib

/-!
# obexftp `ircp_io.c`: file staging and transfer-object construction

A shallow embedding of `src/src/ircp_io.c` (get_fileinfo, build_object_from_file,
ircp_nameok, ircp_open_safe, ircp_checkdir) together with the properties that the
specification states about them.

Conventions of the embedding.

* A C string is the list of its characters before the terminating NUL
  (`List Char`); `name[i]` past the end reads the terminator.
* The operating system, the C library and the OBEX engine are not part of the
  repository.  Calls into them are threaded through explicit records of
  functions (`OS`, `Lib`), and every call that the code makes is appended to a
  call log, so that "which calls were made, on which arguments" is a statement
  about a value.
* Machine integers are `Int`/`Nat` with explicit wrapping where the C code narrows.
-/

namespace IrcpIo

/-! ## C strings -/

/-- The terminating NUL of a C string. -/
def NUL : Char := Char.ofNat 0

/-- The C expression `s[i]` for a C string: a character of the string, or the terminator
right behind it. -/
def charAt (s : List Char) (i : Nat) : Char := s.getD i NUL

/-- The libc function `strlen`. -/
def strlen (s : List Char) : Nat := s.length

/-- Whether `needle` is at the very start of `hay` (the inner comparison loop of `strstr`). -/
def matchesAt : List Char → List Char → Bool
  | [], _ => true
  | _ :: _, [] => false
  | c :: cs, h :: hs => c == h && matchesAt cs hs

/-- The libc function `strstr(hay, needle)`: the offset of the first occurrence of `needle`
in `hay` (the C function returns `hay + offset`), or `none` for the NULL result. -/
def strstr : List Char → List Char → Option Nat
  | [], needle => if matchesAt needle [] then some 0 else none
  | h :: hs, needle =>
    if matchesAt needle (h :: hs) then some 0
    else (strstr hs needle).map (· + 1)

/-! ## `ircp_nameok` (lines 86-103) -/

/-- Check for dangerous filenames: `true` is the C `TRUE`, `false` the C `FALSE`. -/
def ircp_nameok (name : List Char) : Bool :=
  -- No abs paths
  if charAt name 0 = '/' then false
  else if strlen name ≥ 3 then
    -- "../../vmlinuz"
    if charAt name 0 = '.' ∧ charAt name 1 = '.' ∧ charAt name 2 = '/' then false
    -- "dir/../../../vmlinuz"
    else if strstr name "/../".toList ≠ none then false
    else true
  else true

/-! ### The blacklist as the specification words it -/

/-- Rule 1 of the specification: the name begins with the path separator. -/
def beginsWithSeparator (name : List Char) : Prop := ∃ rest, name = '/' :: rest

/-- Rule 2 of the specification: the name begins with `"../"`. -/
def beginsWithDotDotSlash (name : List Char) : Prop := ∃ rest, name = "../".toList ++ rest

/-- Rule 3 of the specification: the name contains `"/../"` somewhere. -/
def containsSlashDotDotSlash (name : List Char) : Prop :=
  ∃ before after, name = before ++ "/../".toList ++ after

/-! ## The operating system -/

/-- The fields of `struct stat` that the code reads. -/
structure Stat where
  st_mode : Nat
  st_size : Int
  st_mtime : Int
  deriving DecidableEq

/-- The file-type mask of `st_mode` (`<sys/stat.h>`). -/
def S_IFMT : Nat := 0o170000
/-- The file-type bits of a directory (`<sys/stat.h>`). -/
def S_IFDIR : Nat := 0o040000
/-- The file-type bits of a regular file (`<sys/stat.h>`). -/
def S_IFREG : Nat := 0o100000
/-- The macro `S_ISDIR` of `<sys/stat.h>`. -/
def S_ISDIR (m : Nat) : Bool := (m &&& S_IFMT) == S_IFDIR

def S_IRUSR : Nat := 0o400
def S_IWUSR : Nat := 0o200
def S_IXUSR : Nat := 0o100
def S_IRGRP : Nat := 0o040
def S_IWGRP : Nat := 0o020
def S_IXGRP : Nat := 0o010
def S_IROTH : Nat := 0o004
def S_IWOTH : Nat := 0o002
def S_IXOTH : Nat := 0o001
/-- The macro `DEFFILEMODE` of `<sys/stat.h>`: read and write for owner, group and others. -/
def DEFFILEMODE : Nat := S_IRUSR ||| S_IWUSR ||| S_IRGRP ||| S_IWGRP ||| S_IROTH ||| S_IWOTH

/-- Open flags of `<fcntl.h>` (Linux values). -/
def O_RDWR : Nat := 0o2
def O_CREAT : Nat := 0o100
def O_TRUNC : Nat := 0o1000

/-- A call into the file system, with its arguments. -/
inductive Syscall where
  | stat (path : List Char)
  | openFile (path : List Char) (flags mode : Nat)
  | mkdir (path : List Char) (mode : Nat)
  deriving DecidableEq

/-- The file system as the code sees it, over an arbitrary type `σ` of file-system states.
`stat` yields the filled buffer when the call returns 0 and `none` when it returns -1;
`openFile` yields the return value of `open` (a descriptor or -1) and the state behind it;
`mkdir` yields whether the call returned 0 (otherwise -1) and the state behind it. -/
structure OS (σ : Type) where
  stat : σ → List Char → Option Stat
  openFile : σ → List Char → Nat → Nat → Int × σ
  mkdir : σ → List Char → Nat → Bool × σ

/-- A file-system state together with the log of the calls made so far (oldest first). -/
structure World (σ : Type) where
  fs : σ
  calls : List Syscall

/-- The call `stat(path, &statbuf)`. -/
def sys_stat {σ : Type} (os : OS σ) (w : World σ) (path : List Char) : Option Stat × World σ :=
  (os.stat w.fs path, { w with calls := w.calls ++ [Syscall.stat path] })

/-- The call `open(path, flags, mode)`. -/
def sys_open {σ : Type} (os : OS σ) (w : World σ) (path : List Char) (flags mode : Nat) :
    Int × World σ :=
  ((os.openFile w.fs path flags mode).1,
   { fs := (os.openFile w.fs path flags mode).2,
     calls := w.calls ++ [Syscall.openFile path flags mode] })

/-- The call `mkdir(path, mode)`: 0 on success, -1 on failure. -/
def sys_mkdir {σ : Type} (os : OS σ) (w : World σ) (path : List Char) (mode : Nat) :
    Int × World σ :=
  (if (os.mkdir w.fs path mode).1 then 0 else -1,
   { fs := (os.mkdir w.fs path mode).2,
     calls := w.calls ++ [Syscall.mkdir path mode] })

/-! ## GLib strings -/

/-- GLib's `GString`: a growable character buffer; `len` is the length of `str`. -/
structure GString where
  str : List Char
  deriving DecidableEq

/-- The field `len` of a `GString`. -/
def GString.len (s : GString) : Nat := strlen s.str

/-- GLib's `g_string_new(init)`: a new string holding a copy of `init`.  The result is a
pointer, `none` being NULL; GLib never returns NULL here (when memory runs out it ends the
process instead). -/
def g_string_new (init : List Char) : Option GString := some { str := init }

/-- GLib's `g_string_append(string, val)`. -/
def g_string_append (s : GString) (val : List Char) : GString := { str := s.str ++ val }

/-- The libc function `strcmp`, up to the sign of its result. -/
def strcmp : List Char → List Char → Int
  | [], [] => 0
  | [], _ :: _ => -1
  | _ :: _, [] => 1
  | a :: as, b :: bs => if a = b then strcmp as bs else if a < b then -1 else 1

/-! ## `ircp_open_safe` (lines 108-134) -/

/-- Open a file, but do some sanity-checking first.  Returns the value of the C function and
the world behind the call. -/
def ircp_open_safe {σ : Type} (os : OS σ) (w : World σ) (path name : List Char) :
    Int × World σ :=
  -- Check for dangerous filenames
  if ircp_nameok name = false then (-1, w)
  else
    match g_string_new path with
    | none => (-1, w)
    | some diskname =>
      let diskname := if diskname.len > 0 then g_string_append diskname "/".toList else diskname
      let diskname := g_string_append diskname name
      sys_open os w diskname.str (O_RDWR ||| O_CREAT ||| O_TRUNC) DEFFILEMODE

/-! ## `ircp_checkdir` (lines 139-180) -/

/-- The enumeration `cd_flags` of `ircp_io.h`.  The header is not among the sources, so the
two bit masks are parameters of the embedding. -/
structure CdFlags where
  CD_CREATE : Nat
  CD_ALLOWABS : Nat

/-- The values of `cd_flags` in the upstream `ircp_io.h`. -/
def upstreamCdFlags : CdFlags := { CD_CREATE := 1, CD_ALLOWABS := 2 }

/-- The path that `ircp_checkdir` builds in `newpath` (lines 150-153).  `g_string_new` is
dereferenced without a NULL test in the source. -/
def checkdir_newpath (path dir : List Char) : GString :=
  let newpath := (g_string_new path).get rfl
  let newpath := if strcmp path "".toList ≠ 0 then g_string_append newpath "/".toList else newpath
  g_string_append newpath dir

/-- Go to a directory. Create if not exists and create is true. -/
def ircp_checkdir {σ : Type} (c : CdFlags) (os : OS σ) (w : World σ) (path dir : List Char)
    (flags : Nat) : Int × World σ :=
  if flags &&& c.CD_ALLOWABS = 0 ∧ ircp_nameok dir = false then (-1, w)
  else
    let newpath := checkdir_newpath path dir
    match sys_stat os w newpath.str with
    | (some statbuf, w1) =>
      -- If this directory aleady exist we are done
      if S_ISDIR statbuf.st_mode then (1, w1)
      -- A non-directory with this name already exist.
      else (-1, w1)
    | (none, w1) =>
      if flags &&& c.CD_CREATE ≠ 0 then
        sys_mkdir os w1 newpath.str (DEFFILEMODE ||| S_IXGRP ||| S_IXUSR ||| S_IXOTH)
      else (-1, w1)

/-! ## Machine integers -/

/-- Narrowing to a 32-bit signed integer (`gint`, `int`), two's complement. -/
def toInt32 (x : Int) : Int := (x + 2147483648) % 4294967296 - 2147483648

/-- Narrowing to a 32-bit unsigned integer (`guint32`). -/
def toUInt32 (x : Int) : Nat := (x % 4294967296).toNat

/-! ## `printf` conversions used by `get_fileinfo` -/

/-- Left-pad a digit string with `'0'` up to `width` characters. -/
def zeroPad (width : Nat) (digits : List Char) : List Char :=
  List.replicate (width - digits.length) '0' ++ digits

/-- The `printf` conversion `%0<width>d`: decimal digits, a leading `-` for a negative
value, zeros between sign and digits up to a total of `width` characters; never truncated. -/
def fmt_0d (width : Nat) (v : Int) : List Char :=
  if v < 0 then '-' :: zeroPad (width - 1) (Nat.toDigits 10 v.natAbs)
  else zeroPad width (Nat.toDigits 10 v.toNat)

/-- The expansion of the format `"%04d-%02d-%02dT%02d:%02d:%02dZ"` on six `int` arguments. -/
def fmt_lastmod (year mon mday hour min sec : Int) : List Char :=
  fmt_0d 4 year ++ '-' :: fmt_0d 2 mon ++ '-' :: fmt_0d 2 mday ++ 'T' :: fmt_0d 2 hour ++
    ':' :: fmt_0d 2 min ++ ':' :: fmt_0d 2 sec ++ ['Z']

/-- GLib's `g_snprintf(buf, n, ...)` on the expanded text: the string left in `buf` is the
text cut to at most `n - 1` characters (the terminator takes the last place). -/
def g_snprintf (n : Nat) (expanded : List Char) : List Char := expanded.take (n - 1)

/-! ## `get_fileinfo` (lines 17-28) -/

/-- The fields of `struct tm` that the code reads. -/
structure Tm where
  tm_year : Int
  tm_mon : Int
  tm_mday : Int
  tm_hour : Int
  tm_min : Int
  tm_sec : Int
  deriving DecidableEq

/-- The library calls of `get_fileinfo` and `build_object_from_file`, over the types `H` of
OBEX handles and `Obj` of OBEX objects.
`stat` is as in `OS`.  `gmtime` yields the broken-down time (the source dereferences its
result without a NULL test).  `OBEX_ObjectNew` and `g_malloc` yield `none` for NULL; the
block of `g_malloc` comes with whatever bytes it holds.  `OBEX_CharToUnicode uc c size`
yields the bytes of the buffer `uc` after the call and the return value. -/
structure Lib (H Obj : Type) where
  stat : List Char → Option Stat
  gmtime : Int → Tm
  OBEX_ObjectNew : H → Nat → Option Obj
  g_malloc : Int → Option (List Nat)
  OBEX_CharToUnicode : List Nat → List Char → Int → List Nat × Int

/-- Get some file-info (size and lastmod).  `stats` is the content of the local variable
`stats` before the call of `stat`, which a failing `stat` leaves as it is; `lastmod` is the
content of the caller's buffer.  Returns the new content of the buffer and the return value. -/
def get_fileinfo {H Obj : Type} (lib : Lib H Obj) (stats : Stat) (name : List Char)
    (_lastmod : List Char) : List Char × Int :=
  let stats := match lib.stat name with
    | some filled => filled
    | none => stats
  let tm := lib.gmtime stats.st_mtime
  let lastmod := g_snprintf 21 (fmt_lastmod (toInt32 (tm.tm_year + 1900)) (toInt32 (tm.tm_mon + 1))
    tm.tm_mday tm.tm_hour tm.tm_min tm.tm_sec)
  (lastmod, toInt32 stats.st_size)

/-! ## `build_object_from_file` (lines 34-81) -/

/-- OBEX constants of `<openobex/obex_const.h>`. -/
def OBEX_CMD_PUT : Nat := 0x02
def OBEX_HDR_NAME : Nat := 0x01
def OBEX_HDR_BODY : Nat := 0x48
def OBEX_HDR_LENGTH : Nat := 0xc3
def OBEX_FL_STREAM_START : Nat := 0x02

/-- The union `obex_headerdata_t` with the member that was assigned last: `bs` is a pointer
to bytes (`none` for NULL, else the bytes it points to), `bq4` a 32-bit unsigned value. -/
inductive HeaderData where
  | bs (bytes : Option (List Nat))
  | bq4 (value : Nat)
  deriving DecidableEq

/-- A call into the OBEX engine, with its arguments. -/
inductive ObexCall (H Obj : Type) where
  | ObjectNew (handle : H) (cmd : Nat)
  | ObjectAddHeader (handle : H) (object : Obj) (hi : Nat) (hv : HeaderData) (hv_size : Int)
      (flags : Nat)
  | ObjectDelete (handle : H) (object : Obj)
  deriving DecidableEq

/-- What `build_object_from_file` leaves behind: the returned pointer (`none` for NULL), the
calls made into the OBEX engine (oldest first) and the content of the local buffer `lastmod`
when the function returns (the text of the debug line). -/
structure BuildResult (H Obj : Type) where
  object : Option Obj
  calls : List (ObexCall H Obj)
  lastmod : List Char

/-- The initial content of the local buffer `lastmod`. -/
def lastmod_init : List Char := "1970-01-01T00:00:00Z".toList

/-- Create an object from a file. Attach some info-headers to it.  `stats` is the content
of the uninitialised `struct stat` of `get_fileinfo`. -/
def build_object_from_file {H Obj : Type} (lib : Lib H Obj) (stats : Stat) (handle : H)
    (localname remotename : List Char) : BuildResult H Obj :=
  let lastmod := lastmod_init
  -- Get filesize and modification-time
  let (lastmod, size) := get_fileinfo lib stats localname lastmod
  match lib.OBEX_ObjectNew handle OBEX_CMD_PUT with
  | none => { object := none, calls := [ObexCall.ObjectNew handle OBEX_CMD_PUT], lastmod := lastmod }
  | some object =>
    let ucname_len : Int := toInt32 (strlen remotename * 2 + 2)
    match lib.g_malloc ucname_len with
    | none =>
      -- err:
      { object := none,
        calls := [ObexCall.ObjectNew handle OBEX_CMD_PUT, ObexCall.ObjectDelete handle object],
        lastmod := lastmod }
    | some ucname =>
      let (ucname, ucname_len) := lib.OBEX_CharToUnicode ucname remotename ucname_len
      { object := some object,
        calls := [ObexCall.ObjectNew handle OBEX_CMD_PUT,
          ObexCall.ObjectAddHeader handle object OBEX_HDR_NAME (HeaderData.bs (some ucname))
            ucname_len 0,
          ObexCall.ObjectAddHeader handle object OBEX_HDR_LENGTH (HeaderData.bq4 (toUInt32 size))
            4 0,
          ObexCall.ObjectAddHeader handle object OBEX_HDR_BODY (HeaderData.bs none)
            0 OBEX_FL_STREAM_START],
        lastmod := lastmod }

/-! ## Lexical path resolution, as the specification words it

The specification speaks of resolving the `.` and `..` segments of the joined path "purely
lexically" and of the result being the base directory or a descendant of it.  The code has
no such function; these definitions state the property. -/

/-- The segments of a path between its separators. -/
def splitSlash : List Char → List (List Char)
  | [] => [[]]
  | c :: cs =>
    match splitSlash cs with
    | [] => [[]]
    | seg :: segs => if c = '/' then [] :: seg :: segs else (c :: seg) :: segs

/-- A lexically resolved path: whether it starts at the root, how many `..` lead out of the
starting directory of a relative path, and the named segments below that point. -/
structure Resolved where
  absolute : Bool
  ups : Nat
  segs : List (List Char)
  deriving DecidableEq

/-- Resolve one segment: empty segments and `.` stay in place, `..` drops the last named
segment (the root is its own parent), any other segment goes one level down. -/
def resolveStep (r : Resolved) (seg : List Char) : Resolved :=
  if seg = [] ∨ seg = ".".toList then r
  else if seg = "..".toList then
    match r.segs with
    | [] => if r.absolute then r else { r with ups := r.ups + 1 }
    | _ :: _ => { r with segs := r.segs.dropLast }
  else { r with segs := r.segs ++ [seg] }

/-- Purely lexical resolution of the `.` and `..` segments of a path. -/
def lexicalResolve (p : List Char) : Resolved :=
  (splitSlash p).foldl resolveStep { absolute := charAt p 0 = '/', ups := 0, segs := [] }

/-- The resolved path `p` is the directory `base` or a descendant of it. -/
def staysWithin (base p : List Char) : Bool :=
  let b := lexicalResolve base
  let q := lexicalResolve p
  b.absolute == q.absolute && b.ups == q.ups && b.segs.isPrefixOf q.segs

/-! ## The timestamp as the specification words it -/

/-- The value of a decimal digit character. -/
def digitValue (c : Char) : Int := (c.toNat : Int) - 48

/-- Read a text of the pattern `YYYY-MM-DDTHH:MM:SSZ` back into year, month, day, hour,
minute and second; `none` when the text does not have that shape. -/
def parseTimestamp : List Char → Option (Int × Int × Int × Int × Int × Int)
  | [y3, y2, y1, y0, '-', m1, m0, '-', d1, d0, 'T', h1, h0, ':', n1, n0, ':', s1, s0, 'Z'] =>
    if [y3, y2, y1, y0, m1, m0, d1, d0, h1, h0, n1, n0, s1, s0].all Char.isDigit then
      some (digitValue y3 * 1000 + digitValue y2 * 100 + digitValue y1 * 10 + digitValue y0,
        digitValue m1 * 10 + digitValue m0, digitValue d1 * 10 + digitValue d0,
        digitValue h1 * 10 + digitValue h0, digitValue n1 * 10 + digitValue n0,
        digitValue s1 * 10 + digitValue s0)
    else none
  | _ => none

/-- The fields of a broken-down time are in the ranges that `gmtime` documents, with a year
of four digits. -/
def Tm.inRange (tm : Tm) : Prop :=
  0 ≤ tm.tm_year + 1900 ∧ tm.tm_year + 1900 ≤ 9999 ∧ 0 ≤ tm.tm_mon ∧ tm.tm_mon ≤ 11 ∧
  1 ≤ tm.tm_mday ∧ tm.tm_mday ≤ 31 ∧ 0 ≤ tm.tm_hour ∧ tm.tm_hour ≤ 23 ∧
  0 ≤ tm.tm_min ∧ tm.tm_min ≤ 59 ∧ 0 ≤ tm.tm_sec ∧ tm.tm_sec ≤ 60

instance (tm : Tm) : Decidable tm.inRange := by
  unfold Tm.inRange
  infer_instance

/-- The decimal digits of `n`, most significant first, zero-padded to two places. -/
def twoDigits (n : Int) : List Char :=
  [Nat.digitChar (n.toNat / 10), Nat.digitChar (n.toNat % 10)]

/-- The decimal digits of `n`, most significant first, zero-padded to four places. -/
def fourDigits (n : Int) : List Char :=
  [Nat.digitChar (n.toNat / 1000), Nat.digitChar (n.toNat / 100 % 10),
   Nat.digitChar (n.toNat / 10 % 10), Nat.digitChar (n.toNat % 10)]

/-- The text `YYYY-MM-DDTHH:MM:SSZ` of a broken-down time: year of four digits, month (counted
from 1), day, hour, minute and second of two digits each, zero-padded, with the separators
`-`, `-`, `T`, `:`, `:` and a final `Z`. -/
def timestampText (tm : Tm) : List Char :=
  fourDigits (tm.tm_year + 1900) ++ '-' :: twoDigits (tm.tm_mon + 1) ++ '-' ::
    twoDigits tm.tm_mday ++ 'T' :: twoDigits tm.tm_hour ++ ':' :: twoDigits tm.tm_min ++ ':' ::
    twoDigits tm.tm_sec ++ ['Z']

/-! ## A concrete environment

A small file system, the UTC calendar and an OBEX engine that never fails, on which the
statements below are evaluated. -/

/-- A file system as a table from path names to `stat` results. -/
abbrev TableFS := List (List Char × Stat)

/-- Look a path name up in the table. -/
def TableFS.find (fs : TableFS) (path : List Char) : Option Stat :=
  (List.find? (fun e => e.1 == path) fs).map Prod.snd

/-- The table file system: `open` creates an empty regular file (descriptor 3) unless the
name is a directory, `mkdir` adds a directory unless the name exists. -/
def tableOS : OS TableFS where
  stat fs path := fs.find path
  openFile fs path _ mode :=
    match fs.find path with
    | some st =>
      if S_ISDIR st.st_mode then (-1, fs)
      else (3, (path, { st with st_size := 0 }) :: fs)
    | none => (3, (path, { st_mode := S_IFREG ||| mode, st_size := 0, st_mtime := 0 }) :: fs)
  mkdir fs path mode :=
    match fs.find path with
    | some _ => (false, fs)
    | none => (true, (path, { st_mode := S_IFDIR ||| mode, st_size := 0, st_mtime := 0 }) :: fs)

/-- A `stat` result of a directory. -/
def dirStat : Stat := { st_mode := S_IFDIR ||| 0o755, st_size := 4096, st_mtime := 0 }

/-- A `stat` result of a regular file of the given size and modification time. -/
def fileStat (size mtime : Int) : Stat :=
  { st_mode := S_IFREG ||| 0o644, st_size := size, st_mtime := mtime }

/-- The broken-down UTC time of a number of seconds since the epoch (proleptic Gregorian
calendar). -/
def gmtime_utc (t : Int) : Tm :=
  let days := t / 86400
  let secs := t % 86400
  let z := days + 719468
  let era := z / 146097
  let doe := z % 146097
  let yoe := (doe - doe / 1460 + doe / 36524 - doe / 146096) / 365
  let doy := doe - (365 * yoe + yoe / 4 - yoe / 100)
  let mp := (5 * doy + 2) / 153
  let d := doy - (153 * mp + 2) / 5 + 1
  let m := if mp < 10 then mp + 3 else mp - 9
  let y := yoe + era * 400 + (if m ≤ 2 then 1 else 0)
  { tm_year := y - 1900, tm_mon := m - 1, tm_mday := d,
    tm_hour := secs / 3600, tm_min := secs % 3600 / 60, tm_sec := secs % 60 }

/-- OpenOBEX's `OBEX_CharToUnicode`: every character becomes a zero byte and its own byte,
two zero bytes end the text; -1 and an untouched buffer when `size` is too small. -/
def charToUnicode (uc : List Nat) (c : List Char) (size : Int) : List Nat × Int :=
  if (c.length : Int) * 2 + 2 > size then (uc, -1)
  else
    let text := (c.map (fun ch => [0, ch.toNat])).flatten ++ [0, 0]
    (text ++ uc.drop text.length, (c.length : Int) * 2 + 2)

/-- A library over the table file system `fs`: UTC calendar, an engine whose first object
is number 1, a `g_malloc` that yields NULL for a size of 0 only. -/
def tableLib (fs : TableFS) : Lib Unit Nat where
  stat path := fs.find path
  gmtime := gmtime_utc
  OBEX_ObjectNew _ _ := some 1
  g_malloc n := if n = 0 then none else some (List.replicate n.toNat 0)
  OBEX_CharToUnicode := charToUnicode

/-- Base directory, then the separator if the base is not empty, then the name. -/
def joinPath (base name : List Char) : List Char :=
  if base = [] then name else base ++ "/".toList ++ name

/-- The mode `0777` of a created directory. -/
def dirMode : Nat := 0o777

/-- The open flags read-write, create, truncate. -/
def openFlags : Nat := O_RDWR ||| O_CREAT ||| O_TRUNC

/-! ## Lemmas on `strstr` -/

theorem matchesAt_iff (needle hay : List Char) :
    matchesAt needle hay = true ↔ ∃ after, hay = needle ++ after := by
  induction needle generalizing hay with
  | nil => simp [matchesAt]
  | cons c cs ih =>
    cases hay with
    | nil => simp [matchesAt]
    | cons h hs =>
      simp only [matchesAt, Bool.and_eq_true, beq_iff_eq, ih, List.cons_append, List.cons.injEq]
      constructor
      · rintro ⟨rfl, after, rfl⟩
        exact ⟨after, rfl, rfl⟩
      · rintro ⟨after, rfl, rfl⟩
        exact ⟨rfl, after, rfl⟩

theorem strstr_ne_none_iff (hay needle : List Char) :
    strstr hay needle ≠ none ↔ ∃ before after, hay = before ++ needle ++ after := by
  induction hay with
  | nil =>
    simp only [strstr]
    by_cases hm : matchesAt needle [] = true
    · simp only [hm, if_true, ne_eq, not_false_eq_true, true_iff, reduceCtorEq]
      obtain ⟨after, h⟩ := (matchesAt_iff needle []).1 hm
      exact ⟨[], after, by simpa using h⟩
    · simp only [hm, if_false, ne_eq, not_true_eq_false, false_iff, Bool.false_eq_true]
      rintro ⟨before, after, h⟩
      apply hm
      rw [matchesAt_iff]
      have h1 : before ++ needle ++ after = [] := h.symm
      simp only [List.append_eq_nil] at h1
      exact ⟨[], by simp [h1.1.2]⟩
  | cons h hs ih =>
    simp only [strstr]
    by_cases hm : matchesAt needle (h :: hs) = true
    · simp only [hm, if_true, ne_eq, not_false_eq_true, true_iff, reduceCtorEq]
      obtain ⟨after, h1⟩ := (matchesAt_iff needle _).1 hm
      exact ⟨[], after, by simpa using h1⟩
    · simp only [hm, if_false, ne_eq, Option.map_eq_none', Bool.false_eq_true]
      rw [← ne_eq, ih]
      constructor
      · rintro ⟨before, after, rfl⟩
        exact ⟨h :: before, after, by simp⟩
      · rintro ⟨before, after, h1⟩
        cases before with
        | nil =>
          exact absurd ((matchesAt_iff needle _).2 ⟨after, by simpa using h1⟩) hm
        | cons b bs =>
          simp only [List.cons_append, List.cons.injEq] at h1
          exact ⟨bs, after, by simpa using h1.2⟩


theorem not_contains_of_short (name : List Char) (h : name.length < 4) :
    ¬ containsSlashDotDotSlash name := by
  rintro ⟨before, after, rfl⟩
  simp at h
  omega

theorem not_beginsDots_of_short (name : List Char) (h : name.length < 3) :
    ¬ beginsWithDotDotSlash name := by
  rintro ⟨rest, rfl⟩
  simp at h
  omega

theorem charAt_zero_slash_iff (name : List Char) :
    charAt name 0 = '/' ↔ beginsWithSeparator name := by
  cases name with
  | nil => simp [charAt, beginsWithSeparator, NUL]
  | cons c cs =>
    simp only [charAt, List.getD_cons_zero, beginsWithSeparator, List.cons.injEq]
    constructor
    · rintro rfl
      exact ⟨cs, rfl, rfl⟩
    · rintro ⟨rest, h, -⟩
      exact h

theorem dots_prefix_iff (a b c : Char) (rest : List Char) :
    (charAt (a :: b :: c :: rest) 0 = '.' ∧ charAt (a :: b :: c :: rest) 1 = '.' ∧
      charAt (a :: b :: c :: rest) 2 = '/') ↔ beginsWithDotDotSlash (a :: b :: c :: rest) := by
  simp only [charAt, List.getD_cons_zero, List.getD_cons_succ, beginsWithDotDotSlash]
  constructor
  · rintro ⟨rfl, rfl, rfl⟩
    exact ⟨rest, rfl⟩
  · rintro ⟨r, h⟩
    have h1 : a :: b :: c :: rest = '.' :: '.' :: '/' :: r := h
    simp only [List.cons.injEq] at h1
    exact ⟨h1.1, h1.2.1, h1.2.2.1⟩

/-- The validator is the three-rule blacklist, for every name. -/
theorem ircp_nameok_eq_false_iff (name : List Char) :
    ircp_nameok name = false ↔
      beginsWithSeparator name ∨ beginsWithDotDotSlash name ∨ containsSlashDotDotSlash name := by
  unfold ircp_nameok
  by_cases h0 : charAt name 0 = '/'
  · simp only [h0, if_true, true_iff]
    exact Or.inl ((charAt_zero_slash_iff name).1 h0)
  · have hsep : ¬ beginsWithSeparator name := fun h => h0 ((charAt_zero_slash_iff name).2 h)
    simp only [h0, if_false, hsep, false_or]
    by_cases h3 : strlen name ≥ 3
    · simp only [h3, if_true]
      obtain ⟨a, b, c, rest, rfl⟩ : ∃ a b c rest, name = a :: b :: c :: rest := by
        match name, h3 with
        | a :: b :: c :: rest, _ => exact ⟨a, b, c, rest, rfl⟩
      by_cases hd : charAt (a :: b :: c :: rest) 0 = '.' ∧ charAt (a :: b :: c :: rest) 1 = '.' ∧
          charAt (a :: b :: c :: rest) 2 = '/'
      · simp only [hd, and_self, if_true, true_iff]
        exact Or.inl ((dots_prefix_iff a b c rest).1 hd)
      · have hd2 : ¬ beginsWithDotDotSlash (a :: b :: c :: rest) :=
          fun h => hd ((dots_prefix_iff a b c rest).2 h)
        by_cases hc : strstr (a :: b :: c :: rest) "/../".toList ≠ none
        · rw [if_neg hd, if_pos hc]
          exact ⟨fun _ => Or.inr ((strstr_ne_none_iff _ _).1 hc), fun _ => rfl⟩
        · have hc2 : ¬ containsSlashDotDotSlash (a :: b :: c :: rest) :=
            fun h => hc ((strstr_ne_none_iff _ _).2 h)
          rw [if_neg hd, if_neg hc]
          simp [hd2, hc2]
    · simp only [h3, if_false, Bool.true_eq_false, false_iff, reduceCtorEq, not_or]
      have hl : name.length < 3 := by
        simpa [strlen] using h3
      exact ⟨not_beginsDots_of_short name hl, not_contains_of_short name (by omega)⟩

/-- Claim C1.  `ircp_nameok` is exactly the three-rule blacklist: it returns FALSE if and only
if the name begins with `/`, begins with `../` or contains `/../`; every other name is
accepted, among them the empty name, `..`, `a/..b` and `foo/..`, while `/x`, `../x` and
`a/../b` are refused. -/
theorem C1_ircp_nameok_is_three_rule_blacklist :
    (∀ name : List Char, ircp_nameok name = false ↔
      beginsWithSeparator name ∨ beginsWithDotDotSlash name ∨ containsSlashDotDotSlash name) ∧
    (∀ name : List Char, ircp_nameok name = true ↔
      ¬ (beginsWithSeparator name ∨ beginsWithDotDotSlash name ∨
        containsSlashDotDotSlash name)) ∧
    ircp_nameok "".toList = true ∧ ircp_nameok "..".toList = true ∧
    ircp_nameok "a/..b".toList = true ∧ ircp_nameok "foo/..".toList = true ∧
    ircp_nameok "/x".toList = false ∧ ircp_nameok "../x".toList = false ∧
    ircp_nameok "a/../b".toList = false := by
  refine ⟨ircp_nameok_eq_false_iff, ?_, by decide, by decide, by decide, by decide, by decide,
    by decide, by decide⟩
  intro name
  rw [← ircp_nameok_eq_false_iff]
  simp

/-! ## The joined path -/

theorem strcmp_empty_ne_zero_iff (path : List Char) : strcmp path "".toList ≠ 0 ↔ path ≠ [] := by
  cases path with
  | nil => simp [strcmp]
  | cons a as => simp [strcmp]

theorem checkdir_newpath_str (path dir : List Char) :
    (checkdir_newpath path dir).str = joinPath path dir := by
  unfold checkdir_newpath joinPath
  by_cases h : path = []
  · subst h
    simp [strcmp, g_string_new, g_string_append]
  · have h1 : ¬ strcmp path [] = 0 := by
      simpa using (strcmp_empty_ne_zero_iff path).2 h
    simp [h, h1, g_string_new, g_string_append]

theorem dirMode_eq : DEFFILEMODE ||| S_IXGRP ||| S_IXUSR ||| S_IXOTH = dirMode := by decide

theorem ircp_open_safe_accepted {σ : Type} (os : OS σ) (w : World σ) (path name : List Char)
    (h : ircp_nameok name = true) :
    ircp_open_safe os w path name = sys_open os w (joinPath path name) openFlags DEFFILEMODE := by
  unfold ircp_open_safe joinPath openFlags
  by_cases hp : path = []
  · subst hp
    simp [h, g_string_new, g_string_append, GString.len, strlen]
  · have hl : 0 < path.length := List.length_pos.2 hp
    simp [h, hp, hl, g_string_new, g_string_append, GString.len, strlen]

/-! ## Rejected names -/

/-- Claim C3.  A name that `ircp_nameok` refuses never reaches the file system:
`ircp_open_safe` returns -1 and `ircp_checkdir` without `CD_ALLOWABS` returns -1, both with
the file-system state and the log of calls exactly as before, so that neither `open` nor
`stat` nor `mkdir` was called. -/
theorem C3_rejected_name_never_reaches_filesystem {σ : Type} (os : OS σ) (w : World σ)
    (base name : List Char) (hbad : ircp_nameok name = false) :
    ircp_open_safe os w base name = (-1, w) ∧
    ∀ (c : CdFlags) (flags : Nat), flags &&& c.CD_ALLOWABS = 0 →
      ircp_checkdir c os w base name flags = (-1, w) := by
  constructor
  · simp [ircp_open_safe, hbad]
  · intro c flags hflags
    simp [ircp_checkdir, hbad, hflags]

/-- Witness of C3: base `/tmp/recv`, name `../../etc/passwd`, on an empty table file system
with an empty log. -/
theorem C3_witness :
    ircp_nameok "../../etc/passwd".toList = false ∧
    (ircp_open_safe tableOS { fs := [], calls := [] } "/tmp/recv".toList
        "../../etc/passwd".toList = (-1, { fs := [], calls := [] }) ∧
      ∀ (c : CdFlags) (flags : Nat), flags &&& c.CD_ALLOWABS = 0 →
        ircp_checkdir c tableOS { fs := [], calls := [] } "/tmp/recv".toList
          "../../etc/passwd".toList flags = (-1, { fs := [], calls := [] })) :=
  ⟨by decide, C3_rejected_name_never_reaches_filesystem tableOS { fs := [], calls := [] }
    "/tmp/recv".toList "../../etc/passwd".toList (by decide)⟩

/-! ## Accepted names -/

/-- Claim C4.  For a name that `ircp_nameok` accepts, `ircp_open_safe` makes exactly one
call, an `open` of base, separator and name (of the name alone when the base is empty) with
the flags read-write, create, truncate, and returns the result of that call; the opened path
starts with base and separator when the base is not empty. -/
theorem C4_open_safe_opens_joined_path {σ : Type} (os : OS σ) (w : World σ)
    (base name : List Char) (hok : ircp_nameok name = true) :
    (ircp_open_safe os w base name).1 =
      (os.openFile w.fs (joinPath base name) (O_RDWR ||| O_CREAT ||| O_TRUNC) DEFFILEMODE).1 ∧
    (ircp_open_safe os w base name).2.fs =
      (os.openFile w.fs (joinPath base name) (O_RDWR ||| O_CREAT ||| O_TRUNC) DEFFILEMODE).2 ∧
    (ircp_open_safe os w base name).2.calls = w.calls ++
      [Syscall.openFile (joinPath base name) (O_RDWR ||| O_CREAT ||| O_TRUNC) DEFFILEMODE] ∧
    (base = [] → joinPath base name = name) ∧
    (base ≠ [] → joinPath base name = base ++ "/".toList ++ name ∧
      (base ++ "/".toList) <+: joinPath base name) := by
  rw [ircp_open_safe_accepted os w base name hok]
  refine ⟨rfl, rfl, rfl, ?_, ?_⟩
  · intro hb
    simp [joinPath, hb]
  · intro hb
    simp [joinPath, hb]

/-- Witness of C4: base `/tmp/recv`, name `report.txt` opens `/tmp/recv/report.txt`. -/
theorem C4_witness :
    ircp_nameok "report.txt".toList = true ∧
    joinPath "/tmp/recv".toList "report.txt".toList = "/tmp/recv/report.txt".toList ∧
    (ircp_open_safe tableOS { fs := [("/tmp/recv".toList, dirStat)], calls := [] }
      "/tmp/recv".toList "report.txt".toList).2.calls = [] ++
      [Syscall.openFile (joinPath "/tmp/recv".toList "report.txt".toList)
        (O_RDWR ||| O_CREAT ||| O_TRUNC) DEFFILEMODE] :=
  ⟨by decide, by decide,
    (C4_open_safe_opens_joined_path tableOS { fs := [("/tmp/recv".toList, dirStat)], calls := [] }
      "/tmp/recv".toList "report.txt".toList (by decide)).2.2.1⟩

/-! ## The directory navigator -/

/-- The world after the `stat` of `ircp_checkdir`. -/
theorem ircp_checkdir_passed {σ : Type} (c : CdFlags) (os : OS σ) (w : World σ)
    (base dir : List Char) (flags : Nat)
    (hgate : flags &&& c.CD_ALLOWABS ≠ 0 ∨ ircp_nameok dir = true) :
    ircp_checkdir c os w base dir flags =
      match os.stat w.fs (joinPath base dir) with
      | some st =>
        if S_ISDIR st.st_mode then
          (1, { fs := w.fs, calls := w.calls ++ [Syscall.stat (joinPath base dir)] })
        else (-1, { fs := w.fs, calls := w.calls ++ [Syscall.stat (joinPath base dir)] })
      | none =>
        if flags &&& c.CD_CREATE ≠ 0 then
          sys_mkdir os { fs := w.fs, calls := w.calls ++ [Syscall.stat (joinPath base dir)] }
            (joinPath base dir) dirMode
        else (-1, { fs := w.fs, calls := w.calls ++ [Syscall.stat (joinPath base dir)] }) := by
  have hg : ¬ (flags &&& c.CD_ALLOWABS = 0 ∧ ircp_nameok dir = false) := by
    rintro ⟨h1, h2⟩
    rcases hgate with h | h
    · exact h h1
    · rw [h2] at h
      exact Bool.noConfusion h
  unfold ircp_checkdir
  rw [if_neg hg]
  simp only [sys_stat, checkdir_newpath_str, dirMode_eq]
  cases os.stat w.fs (joinPath base dir) <;> rfl

theorem checkdir_table_core {σ : Type} (c : CdFlags) (os : OS σ) (w : World σ)
    (base dir : List Char) (flags : Nat)
    (hgate : flags &&& c.CD_ALLOWABS ≠ 0 ∨ ircp_nameok dir = true) :
    (∀ st, os.stat w.fs (joinPath base dir) = some st → S_ISDIR st.st_mode = true →
      ircp_checkdir c os w base dir flags =
        (1, { fs := w.fs, calls := w.calls ++ [Syscall.stat (joinPath base dir)] })) ∧
    (∀ st, os.stat w.fs (joinPath base dir) = some st → S_ISDIR st.st_mode = false →
      ircp_checkdir c os w base dir flags =
        (-1, { fs := w.fs, calls := w.calls ++ [Syscall.stat (joinPath base dir)] })) ∧
    (os.stat w.fs (joinPath base dir) = none → flags &&& c.CD_CREATE ≠ 0 →
      (ircp_checkdir c os w base dir flags).1 =
        (if (os.mkdir w.fs (joinPath base dir) 0o777).1 then 0 else -1) ∧
      (ircp_checkdir c os w base dir flags).2.fs = (os.mkdir w.fs (joinPath base dir) 0o777).2 ∧
      (ircp_checkdir c os w base dir flags).2.calls = w.calls ++
        [Syscall.stat (joinPath base dir), Syscall.mkdir (joinPath base dir) 0o777]) ∧
    (os.stat w.fs (joinPath base dir) = none → flags &&& c.CD_CREATE = 0 →
      ircp_checkdir c os w base dir flags =
        (-1, { fs := w.fs, calls := w.calls ++ [Syscall.stat (joinPath base dir)] })) ∧
    ((ircp_checkdir c os w base dir flags).1 = 1 ∨ (ircp_checkdir c os w base dir flags).1 = 0 ∨
      (ircp_checkdir c os w base dir flags).1 = -1) ∧
    ((ircp_checkdir c os w base dir flags).1 = 1 ↔
      ∃ st, os.stat w.fs (joinPath base dir) = some st ∧ S_ISDIR st.st_mode = true) ∧
    ((ircp_checkdir c os w base dir flags).1 = 0 ↔
      os.stat w.fs (joinPath base dir) = none ∧ flags &&& c.CD_CREATE ≠ 0 ∧
        (os.mkdir w.fs (joinPath base dir) 0o777).1 = true) := by
  rw [ircp_checkdir_passed c os w base dir flags hgate]
  cases hst : os.stat w.fs (joinPath base dir) with
  | none =>
    by_cases hc : flags &&& c.CD_CREATE = 0
    · simp [hc]
    · cases hm : (os.mkdir w.fs (joinPath base dir) 0o777).1 <;>
        simp [hc, sys_mkdir, dirMode, hm]
  | some st =>
    cases hd : S_ISDIR st.st_mode <;> simp [hd]


/-- Claim C5.  Outcome table of `ircp_checkdir` when `CD_ALLOWABS` is set or the name is
accepted, with the target base, separator, name (the name alone for an empty base): an
existing directory gives 1; an existing non-directory gives -1 and no `mkdir` is called,
whatever `CD_CREATE`; a missing target with `CD_CREATE` gives the result of `mkdir` on the
target with mode 0777 (0 or -1); a missing target without `CD_CREATE` gives -1.  The result
is 1, 0 or -1, it is 1 exactly for an existing directory and 0 exactly for a successful
`mkdir`. -/
theorem C5_checkdir_outcome_table {σ : Type} (c : CdFlags) (os : OS σ) (w : World σ)
    (base dir : List Char) (flags : Nat)
    (hgate : flags &&& c.CD_ALLOWABS ≠ 0 ∨ ircp_nameok dir = true) :
    (∀ st, os.stat w.fs (joinPath base dir) = some st → S_ISDIR st.st_mode = true →
      ircp_checkdir c os w base dir flags =
        (1, { fs := w.fs, calls := w.calls ++ [Syscall.stat (joinPath base dir)] })) ∧
    (∀ st, os.stat w.fs (joinPath base dir) = some st → S_ISDIR st.st_mode = false →
      ircp_checkdir c os w base dir flags =
        (-1, { fs := w.fs, calls := w.calls ++ [Syscall.stat (joinPath base dir)] })) ∧
    (os.stat w.fs (joinPath base dir) = none → flags &&& c.CD_CREATE ≠ 0 →
      (ircp_checkdir c os w base dir flags).1 =
        (if (os.mkdir w.fs (joinPath base dir) 0o777).1 then 0 else -1) ∧
      (ircp_checkdir c os w base dir flags).2.fs = (os.mkdir w.fs (joinPath base dir) 0o777).2 ∧
      (ircp_checkdir c os w base dir flags).2.calls = w.calls ++
        [Syscall.stat (joinPath base dir), Syscall.mkdir (joinPath base dir) 0o777]) ∧
    (os.stat w.fs (joinPath base dir) = none → flags &&& c.CD_CREATE = 0 →
      ircp_checkdir c os w base dir flags =
        (-1, { fs := w.fs, calls := w.calls ++ [Syscall.stat (joinPath base dir)] })) ∧
    ((ircp_checkdir c os w base dir flags).1 = 1 ∨ (ircp_checkdir c os w base dir flags).1 = 0 ∨
      (ircp_checkdir c os w base dir flags).1 = -1) ∧
    ((ircp_checkdir c os w base dir flags).1 = 1 ↔
      ∃ st, os.stat w.fs (joinPath base dir) = some st ∧ S_ISDIR st.st_mode = true) ∧
    ((ircp_checkdir c os w base dir flags).1 = 0 ↔
      os.stat w.fs (joinPath base dir) = none ∧ flags &&& c.CD_CREATE ≠ 0 ∧
        (os.mkdir w.fs (joinPath base dir) 0o777).1 = true) :=
  checkdir_table_core c os w base dir flags hgate

/-- Witness of C5: under `/tmp/recv` the accepted name `photos` does not exist and
`CD_CREATE` is set, so the result is that of `mkdir` on `/tmp/recv/photos` with mode 0777. -/
theorem C5_witness :
    ircp_nameok "photos".toList = true ∧
    ((ircp_checkdir upstreamCdFlags tableOS { fs := [("/tmp/recv".toList, dirStat)], calls := [] }
        "/tmp/recv".toList "photos".toList 1).1 =
        (if (tableOS.mkdir [("/tmp/recv".toList, dirStat)]
          (joinPath "/tmp/recv".toList "photos".toList) 0o777).1 then 0 else -1) ∧
      (ircp_checkdir upstreamCdFlags tableOS { fs := [("/tmp/recv".toList, dirStat)], calls := [] }
        "/tmp/recv".toList "photos".toList 1).2.fs =
        (tableOS.mkdir [("/tmp/recv".toList, dirStat)]
          (joinPath "/tmp/recv".toList "photos".toList) 0o777).2 ∧
      (ircp_checkdir upstreamCdFlags tableOS { fs := [("/tmp/recv".toList, dirStat)], calls := [] }
        "/tmp/recv".toList "photos".toList 1).2.calls = [] ++
        [Syscall.stat (joinPath "/tmp/recv".toList "photos".toList),
          Syscall.mkdir (joinPath "/tmp/recv".toList "photos".toList) 0o777]) :=
  ⟨by decide,
    (C5_checkdir_outcome_table upstreamCdFlags tableOS
      { fs := [("/tmp/recv".toList, dirStat)], calls := [] } "/tmp/recv".toList "photos".toList 1
      (Or.inr (by decide))).2.2.1 (by decide) (by decide)⟩

/-- Claim C6 as stated fails: with an empty base, the name `/tmp` and no flag set, the
target `/tmp` exists as a directory, and yet `ircp_checkdir` returns -1 (the name is refused
before the target is looked at), not 1.  The same with the base `/tmp/recv` and the name
`../recv`, whose target `/tmp/recv/../recv` is a directory. -/
theorem C6_counterexample :
    tableOS.stat [("/tmp".toList, dirStat)] (joinPath "".toList "/tmp".toList) = some dirStat ∧
    S_ISDIR dirStat.st_mode = true ∧
    (ircp_checkdir upstreamCdFlags tableOS { fs := [("/tmp".toList, dirStat)], calls := [] }
      "".toList "/tmp".toList 0).1 = -1 ∧
    tableOS.stat [("/tmp/recv/../recv".toList, dirStat)]
      (joinPath "/tmp/recv".toList "../recv".toList) = some dirStat ∧
    (ircp_checkdir upstreamCdFlags tableOS
      { fs := [("/tmp/recv/../recv".toList, dirStat)], calls := [] }
      "/tmp/recv".toList "../recv".toList 0).1 = -1 ∧
    ¬ (∀ (c : CdFlags) (os : OS TableFS) (w : World TableFS) (base dir : List Char) (flags : Nat)
        (st : Stat), os.stat w.fs (joinPath base dir) = some st → S_ISDIR st.st_mode = true →
        (ircp_checkdir c os w base dir flags).1 = 1) := by
  refine ⟨by decide, by decide, by decide, by decide, by decide, ?_⟩
  intro h
  have h1 := h upstreamCdFlags tableOS { fs := [("/tmp".toList, dirStat)], calls := [] }
    "".toList "/tmp".toList 0 dirStat (by decide) (by decide)
  revert h1
  decide

/-- Claim C6, amended.  `ircp_checkdir` changes the file system by at most one `mkdir` of the
joined target, and only when the target does not exist and `CD_CREATE` is set.  (i) When
`CD_ALLOWABS` is set or the name is accepted, and the target exists as a directory, two
calls in a row with the same arguments both return 1 and leave the file system as it was.
(ii) With `CD_CREATE` clear and a target that does not exist the result is -1, the file
system is as it was and no `mkdir` is called. -/
theorem C6_checkdir_frame {σ : Type} (c : CdFlags) (os : OS σ) (w : World σ)
    (base dir : List Char) (flags : Nat) :
    (((ircp_checkdir c os w base dir flags).2.fs = w.fs ∧
        ((ircp_checkdir c os w base dir flags).2.calls = w.calls ∨
          (ircp_checkdir c os w base dir flags).2.calls =
            w.calls ++ [Syscall.stat (joinPath base dir)])) ∨
      (os.stat w.fs (joinPath base dir) = none ∧ flags &&& c.CD_CREATE ≠ 0 ∧
        (ircp_checkdir c os w base dir flags).2.fs =
          (os.mkdir w.fs (joinPath base dir) 0o777).2 ∧
        (ircp_checkdir c os w base dir flags).2.calls = w.calls ++
          [Syscall.stat (joinPath base dir), Syscall.mkdir (joinPath base dir) 0o777])) ∧
    ((flags &&& c.CD_ALLOWABS ≠ 0 ∨ ircp_nameok dir = true) →
      ∀ st, os.stat w.fs (joinPath base dir) = some st → S_ISDIR st.st_mode = true →
        (ircp_checkdir c os w base dir flags).1 = 1 ∧
        (ircp_checkdir c os w base dir flags).2.fs = w.fs ∧
        (ircp_checkdir c os (ircp_checkdir c os w base dir flags).2 base dir flags).1 = 1 ∧
        (ircp_checkdir c os (ircp_checkdir c os w base dir flags).2 base dir flags).2.fs = w.fs) ∧
    (flags &&& c.CD_CREATE = 0 → os.stat w.fs (joinPath base dir) = none →
      (ircp_checkdir c os w base dir flags).1 = -1 ∧
      (ircp_checkdir c os w base dir flags).2.fs = w.fs ∧
      ((ircp_checkdir c os w base dir flags).2.calls = w.calls ∨
        (ircp_checkdir c os w base dir flags).2.calls =
          w.calls ++ [Syscall.stat (joinPath base dir)])) := by
  by_cases hgate : flags &&& c.CD_ALLOWABS ≠ 0 ∨ ircp_nameok dir = true
  · have hT := checkdir_table_core c os w base dir flags hgate
    refine ⟨?_, ?_, ?_⟩
    · cases hst : os.stat w.fs (joinPath base dir) with
      | none =>
        by_cases hc : flags &&& c.CD_CREATE = 0
        · left
          rw [hT.2.2.2.1 hst hc]
          exact ⟨rfl, Or.inr rfl⟩
        · right
          exact ⟨rfl, hc, (hT.2.2.1 hst hc).2⟩
      | some st =>
        left
        cases hd : S_ISDIR st.st_mode
        · rw [hT.2.1 st hst hd]
          exact ⟨rfl, Or.inr rfl⟩
        · rw [hT.1 st hst hd]
          exact ⟨rfl, Or.inr rfl⟩
    · intro _ st hst hd
      have h1 := hT.1 st hst hd
      have hT2 := checkdir_table_core c os
        { fs := w.fs, calls := w.calls ++ [Syscall.stat (joinPath base dir)] } base dir flags
        hgate
      have h2 := hT2.1 st hst hd
      rw [h1]
      refine ⟨rfl, rfl, ?_, ?_⟩
      · rw [h2]
      · rw [h2]
    · intro hc hst
      rw [hT.2.2.2.1 hst hc]
      exact ⟨rfl, rfl, Or.inr rfl⟩
  · have hbad : ircp_nameok dir = false := by
      cases h : ircp_nameok dir
      · rfl
      · exact absurd (Or.inr h) hgate
    have hflag : flags &&& c.CD_ALLOWABS = 0 := by
      by_contra h
      exact hgate (Or.inl h)
    have hr : ircp_checkdir c os w base dir flags = (-1, w) := by
      simp [ircp_checkdir, hbad, hflag]
    rw [hr]
    refine ⟨Or.inl ⟨rfl, Or.inl rfl⟩, fun h => absurd h hgate, fun _ _ => ⟨rfl, rfl, Or.inl rfl⟩⟩

/-- Witness of C6: under `/tmp` the accepted name `recv` exists as a directory; two calls in
a row return 1 and leave the file system as it was. -/
theorem C6_witness :
    ircp_nameok "recv".toList = true ∧
    tableOS.stat [("/tmp/recv".toList, dirStat)] (joinPath "/tmp".toList "recv".toList)
      = some dirStat ∧
    S_ISDIR dirStat.st_mode = true ∧
    (ircp_checkdir upstreamCdFlags tableOS { fs := [("/tmp/recv".toList, dirStat)], calls := [] }
        "/tmp".toList "recv".toList 0).1 = 1 ∧
    (ircp_checkdir upstreamCdFlags tableOS { fs := [("/tmp/recv".toList, dirStat)], calls := [] }
        "/tmp".toList "recv".toList 0).2.fs = [("/tmp/recv".toList, dirStat)] ∧
    (ircp_checkdir upstreamCdFlags tableOS
        (ircp_checkdir upstreamCdFlags tableOS
          { fs := [("/tmp/recv".toList, dirStat)], calls := [] } "/tmp".toList "recv".toList 0).2
        "/tmp".toList "recv".toList 0).1 = 1 ∧
    (ircp_checkdir upstreamCdFlags tableOS
        (ircp_checkdir upstreamCdFlags tableOS
          { fs := [("/tmp/recv".toList, dirStat)], calls := [] } "/tmp".toList "recv".toList 0).2
        "/tmp".toList "recv".toList 0).2.fs = [("/tmp/recv".toList, dirStat)] :=
  ⟨by decide, by decide, by decide,
    (C6_checkdir_frame upstreamCdFlags tableOS
      { fs := [("/tmp/recv".toList, dirStat)], calls := [] } "/tmp".toList "recv".toList 0).2.1
      (Or.inr (by decide)) dirStat (by decide) (by decide)⟩

/-! ## Names that lead out of the base directory -/

/-- Claim C2 fails on the code.  The name `..` is accepted; under the base `/tmp/recv`
`ircp_open_safe` calls `open` on `/tmp/recv/..` and `ircp_checkdir` (no flag set) calls
`stat` on it and returns 1 when it is a directory; lexically that path is `/tmp`, the parent
of the base and not inside it. -/
theorem C2_dotdot_leaves_base :
    ircp_nameok "..".toList = true ∧
    (ircp_open_safe tableOS { fs := [("/tmp/recv/..".toList, dirStat)], calls := [] }
      "/tmp/recv".toList "..".toList).2.calls =
      [Syscall.openFile "/tmp/recv/..".toList (O_RDWR ||| O_CREAT ||| O_TRUNC) DEFFILEMODE] ∧
    (ircp_checkdir upstreamCdFlags tableOS { fs := [("/tmp/recv/..".toList, dirStat)], calls := [] }
      "/tmp/recv".toList "..".toList 0).1 = 1 ∧
    (ircp_checkdir upstreamCdFlags tableOS { fs := [("/tmp/recv/..".toList, dirStat)], calls := [] }
      "/tmp/recv".toList "..".toList 0).2.calls = [Syscall.stat "/tmp/recv/..".toList] ∧
    lexicalResolve "/tmp/recv/..".toList = lexicalResolve "/tmp".toList ∧
    staysWithin "/tmp/recv".toList "/tmp/recv/..".toList = false ∧
    staysWithin "/tmp/recv".toList "/tmp/recv/report.txt".toList = true := by
  refine ⟨by decide, by decide, by decide, by decide, by decide, by decide, by decide⟩

/-! ## The transfer-object builder -/

/-- Claim C9 fails on the code.  `get_fileinfo` does not look at the result of `stat`: when
`stat` fails it formats the time found in the unfilled buffer.  With a buffer whose
`st_mtime` holds 86400 the text written over the initial `1970-01-01T00:00:00Z` is
`1970-01-02T00:00:00Z`, in `get_fileinfo` and at the end of `build_object_from_file`. -/
theorem C9_failed_stat_overwrites_sentinel :
    (tableLib []).stat "missing.txt".toList = none ∧
    lastmod_init = "1970-01-01T00:00:00Z".toList ∧
    (get_fileinfo (tableLib []) (fileStat 7 86400) "missing.txt".toList lastmod_init).1
      = "1970-01-02T00:00:00Z".toList ∧
    (build_object_from_file (tableLib []) (fileStat 7 86400) () "missing.txt".toList
      "m".toList).lastmod = "1970-01-02T00:00:00Z".toList ∧
    (build_object_from_file (tableLib []) (fileStat 7 86400) () "missing.txt".toList
      "m".toList).lastmod ≠ lastmod_init := by
  refine ⟨by decide, by decide, by decide, by decide, by decide⟩

/-! ## The timestamp format -/

theorem toDigitsCore_acc (b : Nat) : ∀ (fuel n : Nat) (acc : List Char),
    Nat.toDigitsCore b fuel n acc = Nat.toDigitsCore b fuel n [] ++ acc := by
  intro fuel
  induction fuel with
  | zero => intro n acc; simp [Nat.toDigitsCore]
  | succ f ih =>
    intro n acc
    simp only [Nat.toDigitsCore]
    by_cases h : n / b = 0
    · simp [h]
    · simp only [h, if_false]
      rw [ih (n / b) (Nat.digitChar (n % b) :: acc), ih (n / b) [Nat.digitChar (n % b)]]
      simp

theorem toDigitsCore_fuel : ∀ (f g n : Nat), n < f → n < g →
    Nat.toDigitsCore 10 f n [] = Nat.toDigitsCore 10 g n [] := by
  intro f
  induction f with
  | zero => intro g n h; omega
  | succ f ih =>
    intro g n hf hg
    cases g with
    | zero => omega
    | succ g =>
      simp only [Nat.toDigitsCore]
      by_cases h : n / 10 = 0
      · simp [h]
      · simp only [h, if_false]
        rw [toDigitsCore_acc 10 f, toDigitsCore_acc 10 g]
        have h1 : n / 10 < f := by omega
        have h2 : n / 10 < g := by omega
        rw [ih g (n / 10) h1 h2]

theorem toDigits_lt_ten (n : Nat) (h : n < 10) : Nat.toDigits 10 n = [Nat.digitChar n] := by
  have h0 : n / 10 = 0 := by omega
  have h1 : n % 10 = n := by omega
  simp [Nat.toDigits, Nat.toDigitsCore, h0, h1]

theorem toDigits_ge_ten (n : Nat) (h : 10 ≤ n) :
    Nat.toDigits 10 n = Nat.toDigits 10 (n / 10) ++ [Nat.digitChar (n % 10)] := by
  have h0 : ¬ n / 10 = 0 := by omega
  have key : Nat.toDigitsCore 10 (n + 1) n [] =
      Nat.toDigitsCore 10 (n / 10 + 1) (n / 10) [] ++ [Nat.digitChar (n % 10)] := by
    rw [Nat.toDigitsCore]
    simp only [h0, if_false]
    rw [toDigitsCore_acc 10 n]
    rw [toDigitsCore_fuel n (n / 10 + 1) (n / 10) (by omega) (by omega)]
  exact key

theorem toDigits_length_pos (n : Nat) : 0 < (Nat.toDigits 10 n).length := by
  by_cases h : n < 10
  · simp [toDigits_lt_ten n h]
  · rw [toDigits_ge_ten n (by omega)]
    simp


theorem zeroPad_two (n : Nat) (h : n < 100) :
    zeroPad 2 (Nat.toDigits 10 n) = [Nat.digitChar (n / 10), Nat.digitChar (n % 10)] := by
  by_cases h1 : n < 10
  · have : n / 10 = 0 := by omega
    have h2 : n % 10 = n := by omega
    rw [toDigits_lt_ten n h1, this, h2]
    rfl
  · rw [toDigits_ge_ten n (by omega), toDigits_lt_ten (n / 10) (by omega)]
    rfl

theorem zeroPad_four (n : Nat) (h : n < 10000) :
    zeroPad 4 (Nat.toDigits 10 n) = [Nat.digitChar (n / 1000), Nat.digitChar (n / 100 % 10),
      Nat.digitChar (n / 10 % 10), Nat.digitChar (n % 10)] := by
  by_cases h1 : n < 10
  · have e1 : n / 1000 = 0 := by omega
    have e2 : n / 100 % 10 = 0 := by omega
    have e3 : n / 10 % 10 = 0 := by omega
    have e4 : n % 10 = n := by omega
    rw [toDigits_lt_ten n h1, e1, e2, e3, e4]
    rfl
  · by_cases h2 : n < 100
    · have e1 : n / 1000 = 0 := by omega
      have e2 : n / 100 % 10 = 0 := by omega
      have e3 : n / 10 % 10 = n / 10 := by omega
      rw [toDigits_ge_ten n (by omega), toDigits_lt_ten (n / 10) (by omega), e1, e2, e3]
      rfl
    · by_cases h3 : n < 1000
      · have e1 : n / 1000 = 0 := by omega
        have e2 : n / 100 % 10 = n / 100 := by omega
        have e3 : n / 10 / 10 = n / 100 := by omega
        rw [toDigits_ge_ten n (by omega), toDigits_ge_ten (n / 10) (by omega),
          toDigits_lt_ten (n / 10 / 10) (by omega), e1, e2, e3]
        rfl
      · have e3 : n / 10 / 10 = n / 100 := by omega
        have e4 : n / 100 / 10 = n / 1000 := by omega
        rw [toDigits_ge_ten n (by omega), toDigits_ge_ten (n / 10) (by omega), e3,
          toDigits_ge_ten (n / 100) (by omega), e4, toDigits_lt_ten (n / 1000) (by omega)]
        rfl

theorem zeroPad_length_ge (width : Nat) (digits : List Char) :
    width ≤ (zeroPad width digits).length := by
  simp [zeroPad]
  omega

theorem digitChar_isDigit (d : Nat) (h : d < 10) : (Nat.digitChar d).isDigit = true := by
  interval_cases d <;> decide

theorem digitChar_toNat (d : Nat) (h : d < 10) : digitValue (Nat.digitChar d) = d := by
  interval_cases d <;> decide


theorem fmt_0d_length_ge (width : Nat) (v : Int) (hw : 1 ≤ width) :
    width ≤ (fmt_0d width v).length := by
  unfold fmt_0d
  by_cases h : v < 0
  · simp only [h, if_true, List.length_cons]
    have := zeroPad_length_ge (width - 1) (Nat.toDigits 10 v.natAbs)
    omega
  · simp only [h, if_false]
    exact zeroPad_length_ge width _

theorem fmt_lastmod_length_ge (year mon mday hour min sec : Int) :
    20 ≤ (fmt_lastmod year mon mday hour min sec).length := by
  have h1 := fmt_0d_length_ge 4 year (by omega)
  have h2 := fmt_0d_length_ge 2 mon (by omega)
  have h3 := fmt_0d_length_ge 2 mday (by omega)
  have h4 := fmt_0d_length_ge 2 hour (by omega)
  have h5 := fmt_0d_length_ge 2 min (by omega)
  have h6 := fmt_0d_length_ge 2 sec (by omega)
  simp only [fmt_lastmod, List.length_append, List.length_cons, List.length_nil]
  omega

theorem get_fileinfo_lastmod_length {H Obj : Type} (lib : Lib H Obj) (stats : Stat)
    (name lastmod : List Char) : (get_fileinfo lib stats name lastmod).1.length = 20 := by
  simp only [get_fileinfo, g_snprintf, List.length_take]
  have := fmt_lastmod_length_ge
    (toInt32 ((lib.gmtime (match lib.stat name with
      | some filled => filled
      | none => stats).st_mtime).tm_year + 1900))
    (toInt32 ((lib.gmtime (match lib.stat name with
      | some filled => filled
      | none => stats).st_mtime).tm_mon + 1))
    (lib.gmtime (match lib.stat name with
      | some filled => filled
      | none => stats).st_mtime).tm_mday
    (lib.gmtime (match lib.stat name with
      | some filled => filled
      | none => stats).st_mtime).tm_hour
    (lib.gmtime (match lib.stat name with
      | some filled => filled
      | none => stats).st_mtime).tm_min
    (lib.gmtime (match lib.stat name with
      | some filled => filled
      | none => stats).st_mtime).tm_sec
  omega

theorem fmt_0d_two (v : Int) (h0 : 0 ≤ v) (h1 : v ≤ 99) : fmt_0d 2 v = twoDigits v := by
  have hn : ¬ v < 0 := by omega
  simp only [fmt_0d, hn, if_false, twoDigits]
  exact zeroPad_two v.toNat (by omega)

theorem fmt_0d_four (v : Int) (h0 : 0 ≤ v) (h1 : v ≤ 9999) : fmt_0d 4 v = fourDigits v := by
  have hn : ¬ v < 0 := by omega
  simp only [fmt_0d, hn, if_false, fourDigits]
  exact zeroPad_four v.toNat (by omega)

theorem toInt32_of_small (x : Int) (h0 : -2147483648 ≤ x) (h1 : x < 2147483648) :
    toInt32 x = x := by
  unfold toInt32
  omega

theorem fmt_lastmod_inRange (tm : Tm) (h : tm.inRange) :
    g_snprintf 21 (fmt_lastmod (toInt32 (tm.tm_year + 1900)) (toInt32 (tm.tm_mon + 1))
      tm.tm_mday tm.tm_hour tm.tm_min tm.tm_sec) = timestampText tm := by
  obtain ⟨y0, y1, m0, m1, d0, d1, h0, h1, n0, n1, s0, s1⟩ := h
  rw [toInt32_of_small _ (by omega) (by omega), toInt32_of_small _ (by omega) (by omega)]
  unfold fmt_lastmod
  rw [fmt_0d_four _ y0 y1, fmt_0d_two _ (by omega) (by omega), fmt_0d_two _ (by omega) (by omega),
    fmt_0d_two _ h0 (by omega), fmt_0d_two _ n0 (by omega), fmt_0d_two _ s0 (by omega)]
  rfl

theorem parseTimestamp_timestampText (tm : Tm) (h : tm.inRange) :
    parseTimestamp (timestampText tm) = some (tm.tm_year + 1900, tm.tm_mon + 1, tm.tm_mday,
      tm.tm_hour, tm.tm_min, tm.tm_sec) := by
  obtain ⟨y0, y1, m0, m1, d0, d1, h0, h1, n0, n1, s0, s1⟩ := h
  simp only [timestampText, fourDigits, twoDigits, List.cons_append, List.nil_append,
    parseTimestamp]
  rw [if_pos (by simp (disch := omega) only [List.all_cons, List.all_nil, digitChar_isDigit,
    Bool.and_self])]
  simp (disch := omega) only [digitChar_toNat]
  simp only [Option.some.injEq, Prod.mk.injEq]
  refine ⟨?_, ?_, ?_, ?_, ?_, ?_⟩ <;> omega

/-- Claim C10.  The text that `get_fileinfo` writes into `lastmod` has exactly 20
characters, whatever broken-down time `gmtime` returns.  When `stat` succeeds and the
broken-down time of the file's `st_mtime` has a year in 0..9999 and the other fields in
their ranges, the text is the four-digit year, two-digit month, day, hour, minute and
second, zero-padded, with the separators `-`, `-`, `T`, `:`, `:` and a final `Z`, and reading
it back gives exactly that year, month, day, hour, minute and second. -/
theorem C10_lastmod_is_20_chars_iso8601 {H Obj : Type} (lib : Lib H Obj) (stats : Stat)
    (name lastmod : List Char) :
    (get_fileinfo lib stats name lastmod).1.length = 20 ∧
    ∀ st, lib.stat name = some st → (lib.gmtime st.st_mtime).inRange →
      (get_fileinfo lib stats name lastmod).1 = timestampText (lib.gmtime st.st_mtime) ∧
      parseTimestamp (get_fileinfo lib stats name lastmod).1 =
        some ((lib.gmtime st.st_mtime).tm_year + 1900, (lib.gmtime st.st_mtime).tm_mon + 1,
          (lib.gmtime st.st_mtime).tm_mday, (lib.gmtime st.st_mtime).tm_hour,
          (lib.gmtime st.st_mtime).tm_min, (lib.gmtime st.st_mtime).tm_sec) := by
  refine ⟨get_fileinfo_lastmod_length lib stats name lastmod, ?_⟩
  intro st hstat hr
  have h1 : (get_fileinfo lib stats name lastmod).1 = timestampText (lib.gmtime st.st_mtime) := by
    simp only [get_fileinfo, hstat]
    exact fmt_lastmod_inRange _ hr
  rw [h1]
  exact ⟨rfl, parseTimestamp_timestampText _ hr⟩

/-- Witness of C10: a file modified 1700000000 seconds after the epoch gets the text
`2023-11-14T22:13:20Z`. -/
theorem C10_witness :
    (gmtime_utc 1700000000).inRange ∧
    timestampText (gmtime_utc 1700000000) = "2023-11-14T22:13:20Z".toList ∧
    (get_fileinfo (tableLib [("a.txt".toList, fileStat 5 1700000000)]) dirStat "a.txt".toList
        lastmod_init).1 = timestampText (gmtime_utc 1700000000) ∧
    parseTimestamp (get_fileinfo (tableLib [("a.txt".toList, fileStat 5 1700000000)]) dirStat
        "a.txt".toList lastmod_init).1 = some (2023, 11, 14, 22, 13, 20) :=
  ⟨by decide, by decide,
    (C10_lastmod_is_20_chars_iso8601 (tableLib [("a.txt".toList, fileStat 5 1700000000)]) dirStat
      "a.txt".toList lastmod_init).2 (fileStat 5 1700000000) (by decide) (by decide)⟩

end IrcpIo
